import Mathlib

/-!
Verification of the checkpoint-to-definition position injection engine of
`striim_export_all_with_checkpoint.py`.

The three pure cores embedded here are:

* `get_checkpoint_position` — the extraction chain of `get_checkpoint_history`
  (lines 309-368 of the source), applied to the `sourcePositionSummary` text of
  the most recent checkpoint entry.  The surrounding API call and JSON
  unwrapping are I/O plumbing outside this core; when the report is missing the
  caller returns absence before this chain runs.
* `get_reader_type` — the classifier (lines 375-405), applied to the text of a
  TQL file.  The file read is I/O plumbing; the classifier proper is the chain
  of six case-insensitive regex searches.
* `update_tql_with_position` — the patcher (lines 412-484), applied to the text
  of a TQL file together with the reader kind and the `format_string` of the
  extracted position.  The file write-back is I/O plumbing: the source computes
  `updated_content`, compares it with the original, writes back and returns
  `True` only when they differ.  The embedding returns the pair
  (new text, changed flag) accordingly.

Texts are embedded as `List Char`.  Every regex that the source uses is a
backtracking-free pattern (each quantified class is disjoint from the literal
that follows it), so each is embedded as a deterministic scanner; `re.search`
tries every start position from the left, `re.sub` replaces every
non-overlapping occurrence from the left and splices the replacement text
literally (none of the replacement strings built by the source contains a
backslash template escape).  Python's `\s` is embedded as the six ASCII
whitespace characters, `\w` as ASCII letters, digits and underscore, `\d` as
ASCII digits (the unicode extensions of these classes never occur in TQL/report
texts and are not modelled).
-/

set_option maxRecDepth 100000

/-- Python `\s` on the reports and TQL files handled here (ASCII whitespace). -/
def isWsC (c : Char) : Bool :=
  c == ' ' || c == '\t' || c == '\n' || c == '\r' || c == '\x0B' || c == '\x0C'

/-- Python `\w` (ASCII part): letter, digit or underscore. -/
def isWordC (c : Char) : Bool :=
  c.isAlpha || c.isDigit || c == '_'

/-- Python `[A-Fa-f0-9]`. -/
def isHexC (c : Char) : Bool :=
  c.isDigit || decide ('a' ≤ c ∧ c ≤ 'f') || decide ('A' ≤ c ∧ c ≤ 'F')

/-- Match a literal, case-sensitively; returns the rest of the input. -/
def litP : List Char → List Char → Option (List Char)
  | [], s => some s
  | _ :: _, [] => none
  | p :: ps, c :: cs => if c = p then litP ps cs else none

/-- Match a literal under `re.IGNORECASE` (ASCII lowering on both sides). -/
def litCIP : List Char → List Char → Option (List Char)
  | [], s => some s
  | _ :: _, [] => none
  | p :: ps, c :: cs => if c.toLower = p.toLower then litCIP ps cs else none

/-- Greedy `\s*`: drop the maximal whitespace run. -/
def dropWs : List Char → List Char
  | [] => []
  | c :: cs => if isWsC c then dropWs cs else c :: cs

/-- Greedy `\s+`: at least one whitespace character, then the maximal run. -/
def ws1 : List Char → Option (List Char)
  | [] => none
  | c :: cs => if isWsC c then some (dropWs cs) else none

/-- Greedy `cls+` followed by nothing: the maximal run of `f`-characters and
the rest of the input. -/
def takeRun (f : Char → Bool) : List Char → List Char × List Char
  | [] => ([], [])
  | c :: cs =>
    if f c then
      let r := takeRun f cs
      (c :: r.1, r.2)
    else ([], c :: cs)

/-- `re.search`: try the matcher at every start position, leftmost wins. -/
def findWith {α : Type} (m : List Char → Option α) : List Char → Option α
  | [] => m []
  | c :: cs =>
    match m (c :: cs) with
    | some r => some r
    | none => findWith m cs

/-- Greedy `\w+`: at least one word character; returns the rest after the
maximal word-character run. -/
def wordRun1 : List Char → Option (List Char)
  | [] => none
  | c :: cs => if isWordC c then some (List.dropWhile isWordC (c :: cs)) else none

/-! ### Extraction rule matchers (source lines 321-366; all case-sensitive) -/

def lblBinlogName : List Char := "BinlogName".toList
def lblBinLogPosition : List Char := "BinLogPosition".toList
def lblCommitScn : List Char := "CommitScn:".toList
def lblUTCmark : List Char := "UTC DateTime value = ".toList
def lblCommitSCNBr : List Char := "CommitSCN[".toList

/-- Pattern `LABEL\s*:\s*(cls+)`: the shape of the two MySQL labels. -/
def matchColonCap (label : List Char) (good : Char → Bool) (l : List Char) :
    Option (List Char) :=
  match litP label l with
  | none => none
  | some s1 =>
    match dropWs s1 with
    | ':' :: s2 =>
      let r := takeRun good (dropWs s2)
      if r.1 = [] then none else some r.1
    | _ => none

/-- Pattern `MARK\s*(cls+)` (with `ws := true`) or `MARK(cls+)` (`ws := false`). -/
def matchCapAfter (mark : List Char) (ws : Bool) (good : Char → Bool)
    (l : List Char) : Option (List Char) :=
  match litP mark l with
  | none => none
  | some s1 =>
    let r := takeRun good (if ws then dropWs s1 else s1)
    if r.1 = [] then none else some r.1

/-- Pattern `CommitSCN\[(\d+)\]` of the Oracle rule. -/
def matchScnBracket (l : List Char) : Option (List Char) :=
  match litP lblCommitSCNBr l with
  | none => none
  | some s1 =>
    let r := takeRun Char.isDigit s1
    if r.1 = [] then none
    else
      match r.2 with
      | ']' :: _ => some r.1
      | _ => none

/-- `re.search(r'BinlogName\s*:\s*([^\s\n]+)', summary)`, the captured group. -/
def findBinlogName (s : List Char) : Option (List Char) :=
  findWith (matchColonCap lblBinlogName (fun c => !isWsC c)) s

/-- `re.search(r'BinLogPosition\s*:\s*(\d+)', summary)`, the captured group. -/
def findBinLogPosition (s : List Char) : Option (List Char) :=
  findWith (matchColonCap lblBinLogPosition Char.isDigit) s

/-- `re.search(r'CommitScn:\s*([A-Fa-f0-9]+)', summary)`, the captured group. -/
def findCommitScn (s : List Char) : Option (List Char) :=
  findWith (matchCapAfter lblCommitScn true isHexC) s

/-- `re.search(r'UTC DateTime value = ([^]]+)', summary)`, the captured group. -/
def findMongoDt (s : List Char) : Option (List Char) :=
  findWith (matchCapAfter lblUTCmark false (fun c => c != ']')) s

/-- `re.search(r'CommitSCN\[(\d+)\]', summary)`, the captured group. -/
def findOracleScn (s : List Char) : Option (List Char) :=
  findWith matchScnBracket s

/-- Python `datetime_str.replace('.000Z', '')`: remove every (non-overlapping,
left-to-right) occurrence of `.000Z`. -/
def stripZ : List Char → List Char
  | [] => []
  | '.' :: '0' :: '0' :: '0' :: 'Z' :: rest => stripZ rest
  | c :: cs => c :: stripZ cs

/-- The normalized position descriptor, one variant per connector family
(`type` field of the dict built at lines 328-366). -/
inductive PositionDescriptor where
  | mysql (binlogName position : List Char)
  | sqlserver (lsn : List Char)
  | mongodb (datetime : List Char)
  | oracle (scn : List Char)
deriving DecidableEq

def strFileName : List Char := "FileName:".toList
def strOffset : List Char := ";offset:".toList
def strLSN0x : List Char := "LSN:0x".toList

/-- The `format_string` field built for each descriptor (lines 332, 342, 354,
365 of the source). -/
def formatString : PositionDescriptor → List Char
  | PositionDescriptor.mysql n p => strFileName ++ n ++ strOffset ++ p
  | PositionDescriptor.sqlserver h => strLSN0x ++ h
  | PositionDescriptor.mongodb d => d
  | PositionDescriptor.oracle s => s

/-- The extraction chain of `get_checkpoint_history` (lines 321-368): MySQL
binlog first (requires both labels), then SQL Server LSN, then MongoDB UTC
datetime (with `.000Z` removal), then Oracle SCN; `none` when nothing matched. -/
def get_checkpoint_position (s : List Char) : Option PositionDescriptor :=
  match findBinlogName s, findBinLogPosition s with
  | some n, some p => some (PositionDescriptor.mysql n p)
  | _, _ =>
    match findCommitScn s with
    | some h => some (PositionDescriptor.sqlserver h)
    | none =>
      match findMongoDt s with
      | some d => some (PositionDescriptor.mongodb (stripZ d))
      | none =>
        match findOracleScn s with
        | some scn => some (PositionDescriptor.oracle scn)
        | none => none

/-! ### Classifier (source lines 375-405) -/

def litCREATE : List Char := "CREATE".toList
def litOR : List Char := "OR".toList
def litREPLACE : List Char := "REPLACE".toList
def litSOURCE : List Char := "SOURCE".toList
def litUSING : List Char := "USING".toList
def litGlobalDot : List Char := "Global.".toList
def litOUTPUT : List Char := "OUTPUT".toList

def tokMysqlReader : List Char := "MysqlReader".toList
def tokMSSqlReader : List Char := "MSSqlReader".toList
def tokMSJet : List Char := "MSJet".toList
def tokMongoDBReader : List Char := "MongoDBReader".toList
def tokOracleReader : List Char := "OracleReader".toList
def tokOJet : List Char := "OJet".toList

/-- The optional group `(?:OR\s+REPLACE\s+)?`: consume it when it matches in
full, otherwise leave the input where it was. -/
def orReplaceOpt (b : List Char) : List Char :=
  match litCIP litOR b with
  | none => b
  | some c =>
    match ws1 c with
    | none => b
    | some d =>
      match litCIP litREPLACE d with
      | none => b
      | some e =>
        match ws1 e with
        | none => b
        | some f => f

/-- One classifier pattern
`CREATE\s+(?:OR\s+REPLACE\s+)?SOURCE\s+\w+\s+USING\s+Global\.<tok>` under
`re.IGNORECASE`, tried at one start position. -/
def matchCreateSrc (tok : List Char) (l : List Char) : Option (List Char) :=
  match litCIP litCREATE l with
  | none => none
  | some a =>
  match ws1 a with
  | none => none
  | some b =>
  match litCIP litSOURCE (orReplaceOpt b) with
  | none => none
  | some g =>
  match ws1 g with
  | none => none
  | some h =>
  match wordRun1 h with
  | none => none
  | some i =>
  match ws1 i with
  | none => none
  | some j =>
  match litCIP litUSING j with
  | none => none
  | some k =>
  match ws1 k with
  | none => none
  | some m1 => litCIP (litGlobalDot ++ tok) m1

/-- `re.search` of one classifier pattern, as a Boolean (the source only tests
truthiness of the match object). -/
def tokSearch (tok : List Char) (content : List Char) : Bool :=
  (findWith (matchCreateSrc tok) content).isSome

/-- The reader families the patcher distinguishes (`'mysql'`, `'sqlserver'`,
`'mongodb'`, `'oracle'`); `get_reader_type` returns `none` for anything else. -/
inductive ReaderKind where
  | mysql
  | sqlserver
  | mongodb
  | oracle
deriving DecidableEq

/-- `get_reader_type` (lines 375-405): the six searches in source order, with
MSJet folded into sqlserver and OJet into oracle. -/
def get_reader_type (content : List Char) : Option ReaderKind :=
  if tokSearch tokMysqlReader content then some ReaderKind.mysql
  else if tokSearch tokMSSqlReader content then some ReaderKind.sqlserver
  else if tokSearch tokMSJet content then some ReaderKind.sqlserver
  else if tokSearch tokMongoDBReader content then some ReaderKind.mongodb
  else if tokSearch tokOracleReader content then some ReaderKind.oracle
  else if tokSearch tokOJet content then some ReaderKind.oracle
  else none

/-! ### Patcher (source lines 412-484) -/

def qNOW : List Char := "'NOW'".toList
def fldStartTimestamp : List Char := "StartTimestamp:".toList
def fldStartPosition : List Char := "StartPosition:".toList
def fldstartTimestamp : List Char := "startTimestamp:".toList
def fldstartSCN : List Char := "startSCN:".toList
def commaNl : List Char := ", \n  ".toList

/-- Pattern `FIELD\s*'NOW'` (the placeholder patterns
`StartTimestamp:\s*'NOW'` and `StartPosition:\s*'NOW'`), returning the rest
after the match. -/
def matchFieldNow (field : List Char) (l : List Char) : Option (List Char) :=
  match litP field l with
  | none => none
  | some s1 => litP qNOW (dropWs s1)

/-- Pattern `FIELD\s*'[^']*'` (the existing-field patterns
`startTimestamp:\s*'[^']*'` and `startSCN:\s*'[^']*'`), returning the rest
after the match. -/
def matchFieldQuoted (field : List Char) (l : List Char) : Option (List Char) :=
  match litP field l with
  | none => none
  | some s1 =>
    match dropWs s1 with
    | '\'' :: s2 =>
      match List.dropWhile (fun c => c != '\'') s2 with
      | '\'' :: rest => some rest
      | _ => none
    | _ => none

/-- The replacement text `FIELD 'fmt'` (e.g. `StartTimestamp: '{position}'`). -/
def replField (field : List Char) (fmt : List Char) : List Char :=
  field ++ (' ' :: '\'' :: []) ++ fmt ++ ('\'' :: [])

/-- Fuelled engine of `re.sub`: at each position, on a match emit the
replacement and continue after the matched span, otherwise copy one character;
out of fuel, emit the rest unchanged (never reached with fuel = length, since
every matcher consumes at least one character). -/
def subF (m : List Char → Option (List Char)) (r : List Char) :
    Nat → List Char → List Char
  | 0, l => l
  | _ + 1, [] => []
  | n + 1, c :: cs =>
    match m (c :: cs) with
    | some rest => r ++ subF m r n rest
    | none => c :: subF m r n cs

/-- `re.sub(pattern, replacement, l)`: replace every non-overlapping
occurrence, leftmost first. -/
def subAll (m : List Char → Option (List Char)) (r : List Char)
    (l : List Char) : List Char :=
  subF m r l.length l

/-- The alternation `(?:OracleReader|OJet)` (or a single token): first
alternative that matches wins. -/
def tryToks : List (List Char) → List Char → Option (List Char)
  | [], _ => none
  | t :: ts, s =>
    match litCIP t s with
    | some r => some r
    | none => tryToks ts s

/-- The insert-path pattern (lines 444 and 463)
`(CREATE\s+[OR REPLACE]?SOURCE\s+\w+\s+USING\s+Global\.<toks>\s*\([^)]+)(\s*\)\s*OUTPUT)`
under `re.IGNORECASE | re.DOTALL`, tried at one start position.  Returns
(group 1, group 2, rest after the match).  The mongo variant passes
`allowOR := false` (its pattern has no `OR REPLACE` option); the oracle
variant passes `allowOR := true`.  Because `[^)]+` cannot cross a `)`, group 1
always ends right before the first `)` after the opening parenthesis, and the
whole pattern requires that first `)` to be followed by `\s*OUTPUT`. -/
def matchInsert (allowOR : Bool) (toks : List (List Char)) (l : List Char) :
    Option (List Char × List Char × List Char) :=
  match litCIP litCREATE l with
  | none => none
  | some a =>
  match ws1 a with
  | none => none
  | some b =>
  match litCIP litSOURCE (if allowOR then orReplaceOpt b else b) with
  | none => none
  | some g =>
  match ws1 g with
  | none => none
  | some h =>
  match wordRun1 h with
  | none => none
  | some i =>
  match ws1 i with
  | none => none
  | some j =>
  match litCIP litUSING j with
  | none => none
  | some k =>
  match ws1 k with
  | none => none
  | some m1 =>
  match litCIP litGlobalDot m1 with
  | none => none
  | some m2 =>
  match tryToks toks m2 with
  | none => none
  | some m3 =>
  match dropWs m3 with
  | '(' :: m5 =>
    match m5 with
    | [] => none
    | c0 :: _ =>
      if c0 == ')' then none
      else
        let sMid := List.dropWhile (fun c => c != ')') m5
        match sMid with
        | ')' :: m6 =>
          match litCIP litOUTPUT (dropWs m6) with
          | none => none
          | some rest =>
            some (l.take (l.length - sMid.length),
                  sMid.take (sMid.length - rest.length), rest)
        | _ => none
  | _ => none

def toksMongo : List (List Char) := [tokMongoDBReader]
def toksOracle : List (List Char) := [tokOracleReader, tokOJet]

/-- The matcher of the insert-path `re.sub`: same pattern, keeping only the
rest (the replacement is constant, computed once from the first match, exactly
as the source substitutes the f-string built from `match.group(1)/(2)`). -/
def matchInsertRest (allowOR : Bool) (toks : List (List Char))
    (l : List Char) : Option (List Char) :=
  (matchInsert allowOR toks l).map (fun x => x.2.2)

/-- The `updated_content` computation of `update_tql_with_position`
(lines 419-470), per reader kind. -/
def computeUpdated (content : List Char) (kind : ReaderKind)
    (fmt : List Char) : List Char :=
  match kind with
  | ReaderKind.mysql =>
    subAll (matchFieldNow fldStartTimestamp) (replField fldStartTimestamp fmt)
      content
  | ReaderKind.sqlserver =>
    subAll (matchFieldNow fldStartPosition) (replField fldStartPosition fmt)
      content
  | ReaderKind.mongodb =>
    if (findWith (matchFieldQuoted fldstartTimestamp) content).isSome then
      subAll (matchFieldQuoted fldstartTimestamp)
        (replField fldstartTimestamp fmt) content
    else
      match findWith (matchInsert false toksMongo) content with
      | some (g1, g2, _) =>
        subAll (matchInsertRest false toksMongo)
          (g1 ++ commaNl ++ replField fldstartTimestamp fmt ++ g2) content
      | none => content
  | ReaderKind.oracle =>
    if (findWith (matchFieldQuoted fldstartSCN) content).isSome then
      subAll (matchFieldQuoted fldstartSCN) (replField fldstartSCN fmt) content
    else
      match findWith (matchInsert true toksOracle) content with
      | some (g1, g2, _) =>
        subAll (matchInsertRest true toksOracle)
          (g1 ++ commaNl ++ replField fldstartSCN fmt ++ g2) content
      | none => content

/-- `update_tql_with_position` (lines 412-484): compute the updated text, and
report `changed = true` (writing the new text back) exactly when it differs
from the original; otherwise return the original text unchanged. -/
def update_tql_with_position (content : List Char) (kind : ReaderKind)
    (fmt : List Char) : List Char × Bool :=
  let u := computeUpdated content kind fmt
  if u = content then (content, false) else (u, true)

/-! ### Concrete documents, reports and descriptor renderings used below -/

def fmt456 : List Char := "FileName:mysql-bin.000123;offset:456".toList
def fmtLsn : List Char := "LSN:0x0000ABCD".toList
def fmtMongo : List Char := "2025-10-02T20:48:28".toList
def fmtScn : List Char := "30507230".toList

def docMyNow : List Char :=
  "CREATE SOURCE s USING Global.MysqlReader (\n  StartTimestamp: 'NOW'\n) OUTPUT TO y;".toList
def docSSNow : List Char :=
  "CREATE SOURCE s USING Global.MSSqlReader (\n  StartPosition: 'NOW'\n) OUTPUT TO y;".toList
def docMgoExist : List Char :=
  "CREATE SOURCE m USING Global.MongoDBReader (\n  startTimestamp: '2024-01-01T00:00:00'\n) OUTPUT TO z;".toList
def docOraExist : List Char :=
  "CREATE SOURCE o USING Global.OracleReader (\n  startSCN: '111'\n) OUTPUT TO z;".toList
def docMulti : List Char :=
  "CREATE SOURCE m USING Global.MongoDBReader (\n  host: 'h',\n  mode: 'x'\n) OUTPUT TO z;".toList
def docMultiExpected : List Char :=
  "CREATE SOURCE m USING Global.MongoDBReader (\n  host: 'h',\n  mode: 'x'\n, \n  startTimestamp: '2025-10-02T20:48:28') OUTPUT TO z;".toList
def docParen : List Char :=
  "CREATE SOURCE m USING Global.MongoDBReader ( q: 'a)b' ) OUTPUT TO z;".toList
def docORmongo : List Char :=
  "CREATE OR REPLACE SOURCE m USING Global.MongoDBReader (\n  a: 'x'\n) OUTPUT TO z;".toList
def docORoracle : List Char :=
  "CREATE OR REPLACE SOURCE o USING Global.OracleReader (\n  a: 'x'\n) OUTPUT TO z;".toList
def docORoracleExpected : List Char :=
  "CREATE OR REPLACE SOURCE o USING Global.OracleReader (\n  a: 'x'\n, \n  startSCN: '30507230') OUTPUT TO z;".toList
def closeOut : List Char := ") OUTPUT".toList

/-- The MySQL placeholder literal `StartTimestamp: 'NOW'`. -/
def plcNOW : List Char := "StartTimestamp: 'NOW'".toList

/-- The replaced field text for the spec's example descriptor rendering:
`StartTimestamp: 'FileName:mysql-bin.000123;offset:456'`. -/
def tgt456 : List Char := replField fldStartTimestamp fmt456

/-- Number of positions of `l` at which the pattern `t` occurs (as a block of
consecutive characters). -/
def countOcc (t : List Char) : List Char → Nat
  | [] => 0
  | c :: cs => (if t = (c :: cs).take t.length then 1 else 0) + countOcc t cs

/-- `t` has no nontrivial border: no proper nonempty suffix of `t` is also a
prefix of `t`.  A block of `t` inside a larger text can then overlap no other
occurrence of `t`. -/
def borderFree (t : List Char) : Prop :=
  ∀ k, k < t.length → 1 ≤ k → t.drop k ≠ t.take (t.length - k)

instance (t : List Char) : Decidable (borderFree t) := by
  unfold borderFree
  infer_instance

/-- Prefix of the C4 witness document (a MysqlReader declaration and one
option), ending right before the placeholder. -/
def wP : List Char :=
  "CREATE SOURCE s USING Global.MysqlReader (\n  Tables: 'db.t',\n  ".toList

/-- Suffix of the C4 witness document, starting right after the placeholder. -/
def wS : List Char := "\n) OUTPUT TO y;".toList

/-- A MysqlReader document carrying the placeholder twice. -/
def docDup : List Char :=
  "CREATE SOURCE s USING Global.MysqlReader ( StartTimestamp: 'NOW' StartTimestamp: 'NOW' ) OUTPUT TO y;".toList

def repC2 : List Char := "BinlogName: b1 BinLogPosition: 9 CommitScn: AB".toList
def capB1 : List Char := "b1".toList
def capN9 : List Char := "9".toList
def repC7 : List Char := "UTC DateTime value = 2025-10-02T20:48:28.000Z]".toList
def capDt : List Char := "2025-10-02T20:48:28.000Z".toList
def repC7bad : List Char := "UTC DateTime value = 2025.000Z-10]".toList
def capBad : List Char := "2025.000Z-10".toList
def capBadStripped : List Char := "2025-10".toList
def repC7two : List Char := "BinlogName: b BinLogPosition: 7 UTC DateTime value = X]".toList
def capX : List Char := "X".toList
def capB : List Char := "b".toList
def cap7 : List Char := "7".toList
def repPartial : List Char := "some summary with BinlogName: mysql-bin.0001 only".toList
def repGarbled : List Char := "no recognized labels anywhere in this report".toList
def ciLowerDoc : List Char := "create source s using global.mysqlreader".toList
def docMsjetW : List Char := "CREATE SOURCE s USING Global.MSJet (a: 'b') OUTPUT TO o;".toList
def docOjetW : List Char := "CREATE SOURCE o USING Global.OJet (a: 'b') OUTPUT TO o;".toList

/-! ### Claims -/

/-- Claim C1: for every document text, family and descriptor rendering, `patch`
(`update_tql_with_position`) is total (a Lean function; in the source no
exception is raised on "no match": `re.sub`/`re.search` simply leave
`updated_content` equal to `content`) and atomic: it either returns the
original text with `changed = false`, or `changed = true` together with a text
that genuinely differs from the original — never a partial insertion. -/
theorem claim_C1 : ∀ (content : List Char) (kind : ReaderKind) (fmt : List Char),
    update_tql_with_position content kind fmt = (content, false) ∨
    ((update_tql_with_position content kind fmt).2 = true ∧
      (update_tql_with_position content kind fmt).1 ≠ content) := by
  intro content kind fmt
  by_cases h : computeUpdated content kind fmt = content
  · left
    simp [update_tql_with_position, h]
  · right
    simp [update_tql_with_position, h]

/-- Claim C2: whenever a checkpoint report carries both a `BinlogName` capture
and a `BinLogPosition` capture, extraction returns the MySQL binlog descriptor
built from exactly those two captures — the MySQL rule is tried first, so no
other family's rule can preempt it — and its rendered form is
`FileName:<name>;offset:<position>`. -/
theorem claim_C2 : ∀ (s n p : List Char),
    findBinlogName s = some n → findBinLogPosition s = some p →
    get_checkpoint_position s = some (PositionDescriptor.mysql n p) ∧
    formatString (PositionDescriptor.mysql n p) = strFileName ++ n ++ strOffset ++ p := by
  intro s n p h1 h2
  refine ⟨?_, rfl⟩
  simp [get_checkpoint_position, h1, h2]

/-- Witness for C2 at a concrete report that also contains the SQL Server
family's `CommitScn:` label, so the priority part is exercised. -/
theorem claim_C2_witness :
    get_checkpoint_position repC2 = some (PositionDescriptor.mysql capB1 capN9) :=
  (claim_C2 repC2 capB1 capN9 (by decide) (by decide)).1

/-- Claim C3 (amended): applying `patch` twice with the same descriptor yields
`changed = false` on the second call on **all four** paths: on the
placeholder-replace paths because the placeholder is gone after the first
call, and on the already-exists replace paths (MongoDB `startTimestamp`,
Oracle `startSCN`) because the second substitution rewrites the identical
value and the source reports change by comparing the text before and after
(`updated_content == content` ⟹ `False`).  The first call yields
`changed = true` on every path (overwriting, in the already-exists case). -/
theorem claim_C3 :
    ((update_tql_with_position docMyNow ReaderKind.mysql fmt456).2 = true ∧
      (update_tql_with_position
        (update_tql_with_position docMyNow ReaderKind.mysql fmt456).1
        ReaderKind.mysql fmt456).2 = false) ∧
    ((update_tql_with_position docSSNow ReaderKind.sqlserver fmtLsn).2 = true ∧
      (update_tql_with_position
        (update_tql_with_position docSSNow ReaderKind.sqlserver fmtLsn).1
        ReaderKind.sqlserver fmtLsn).2 = false) ∧
    ((update_tql_with_position docMgoExist ReaderKind.mongodb fmtMongo).2 = true ∧
      (update_tql_with_position
        (update_tql_with_position docMgoExist ReaderKind.mongodb fmtMongo).1
        ReaderKind.mongodb fmtMongo).2 = false) ∧
    ((update_tql_with_position docOraExist ReaderKind.oracle fmtScn).2 = true ∧
      (update_tql_with_position
        (update_tql_with_position docOraExist ReaderKind.oracle fmtScn).1
        ReaderKind.oracle fmtScn).2 = false) := by
  decide

/-- Counterexample to C3 as stated: on the MongoDB already-exists replace path
the claim asserts `changed = true` on **both** calls, but the second call
returns `changed = false` (the substitution rewrites the identical text, and
the source reports "no replacement made"). -/
theorem claim_C3_counterexample :
    (update_tql_with_position docMgoExist ReaderKind.mongodb fmtMongo).2 = true ∧
    (update_tql_with_position
      (update_tql_with_position docMgoExist ReaderKind.mongodb fmtMongo).1
      ReaderKind.mongodb fmtMongo).2 ≠ true := by
  decide

/-- Claim C5 (amended): the insertion path tolerates arbitrary multi-line
`)`-free interior text between the opening declaration and the closing
delimiter (the interior pattern is `[^)]+`, which spans newlines under
`re.DOTALL` but can never cross a `)`); it anchors on the **first** `)` after
the declaration and requires that `)` to be immediately followed (up to
whitespace) by `OUTPUT`, inserting the new field just before it preceded by a
comma and newline; when that first `)` is not so followed — e.g. an unrelated
`)` nested inside connector options precedes the real boundary — no insertion
happens anywhere and `changed = false`. -/
theorem claim_C5 :
    update_tql_with_position docMulti ReaderKind.mongodb fmtMongo
      = (docMultiExpected, true) ∧
    update_tql_with_position docORoracle ReaderKind.oracle fmtScn
      = (docORoracleExpected, true) ∧
    update_tql_with_position docParen ReaderKind.mongodb fmtMongo
      = (docParen, false) := by
  decide

/-- Counterexample to C5 as stated: `docParen` is a MongoDB-family document
with no existing `startTimestamp` field whose source clause contains an
unrelated `)` inside an option value before the real closing delimiter; a
closing delimiter immediately followed by the output keyword **is** present
(`") OUTPUT"` occurs in the text), so the claim demands that the insertion
anchor on it and succeed, yet `patch` returns the document unchanged with
`changed = false` — the code requires the *first* `)` after the declaration to
be the boundary rather than skipping unrelated ones. -/
theorem claim_C5_counterexample :
    get_reader_type docParen = some ReaderKind.mongodb ∧
    findWith (matchFieldQuoted fldstartTimestamp) docParen = none ∧
    (findWith (litP closeOut) docParen).isSome = true ∧
    update_tql_with_position docParen ReaderKind.mongodb fmtMongo
      = (docParen, false) := by
  decide

/-- Claim C8: the MySQL rule never produces a partial descriptor — when
exactly one of the `BinlogName` / `BinLogPosition` captures is present and no
other family's label matches, extraction returns absence. -/
theorem claim_C8 : ∀ s : List Char,
    (((findBinlogName s).isSome = true ∧ findBinLogPosition s = none) ∨
      (findBinlogName s = none ∧ (findBinLogPosition s).isSome = true)) →
    findCommitScn s = none → findMongoDt s = none → findOracleScn s = none →
    get_checkpoint_position s = none := by
  intro s h h2 h3 h4
  cases hb : findBinlogName s <;> cases hp : findBinLogPosition s <;>
    simp_all [get_checkpoint_position]

/-- Witness for C8 at a concrete report containing `BinlogName` but no
`BinLogPosition` and no other family's label. -/
theorem claim_C8_witness : get_checkpoint_position repPartial = none :=
  claim_C8 repPartial (Or.inl (by decide)) (by decide) (by decide) (by decide)

/-- Claim C9: when no extraction rule's label matches, and on the empty
report, extraction returns absence as a normal outcome (the chain of searches
simply falls through to `None`; nothing is raised — the function is total). -/
theorem claim_C9 :
    (∀ s : List Char, findBinlogName s = none → findBinLogPosition s = none →
      findCommitScn s = none → findMongoDt s = none → findOracleScn s = none →
      get_checkpoint_position s = none) ∧
    get_checkpoint_position [] = none := by
  constructor
  · intro s h1 h2 h3 h4 h5
    simp [get_checkpoint_position, h1, h2, h3, h4, h5]
  · rfl

/-- Witness for C9 at a concrete garbled report matched by no rule. -/
theorem claim_C9_witness : get_checkpoint_position repGarbled = none :=
  claim_C9.1 repGarbled (by decide) (by decide) (by decide) (by decide) (by decide)

/-- Claim C7 (amended): when the MySQL rule does not fire (at least one of its
two captures is absent) and the SQL Server rule does not fire, and the
`UTC DateTime value = ` marker captures a bracket-delimited literal,
extraction returns a MongoTimestamp descriptor whose rendered form is the
captured literal with **every** occurrence of `.000Z` removed (Python
`str.replace`, not only a trailing suffix). -/
theorem claim_C7 : ∀ (s d : List Char),
    (findBinlogName s = none ∨ findBinLogPosition s = none) →
    findCommitScn s = none → findMongoDt s = some d →
    get_checkpoint_position s = some (PositionDescriptor.mongodb (stripZ d)) ∧
    formatString (PositionDescriptor.mongodb (stripZ d)) = stripZ d := by
  intro s d h1 h2 h3
  refine ⟨?_, rfl⟩
  cases hb : findBinlogName s <;> cases hp : findBinLogPosition s <;>
    simp_all [get_checkpoint_position]

/-- Witness for C7 at the spec's example report: the captured literal
`2025-10-02T20:48:28.000Z` renders as `2025-10-02T20:48:28`. -/
theorem claim_C7_witness :
    get_checkpoint_position repC7 = some (PositionDescriptor.mongodb fmtMongo) :=
  (claim_C7 repC7 capDt (Or.inl (by decide)) (by decide) (by decide)).1

/-- Counterexample to C7 as stated: (1) on a report whose captured literal is
`2025.000Z-10` — no *trailing* `.000Z` suffix, so the claim demands the
rendered form be the literal itself — the code removes the interior `.000Z`
and renders `2025-10`; (2) on a report that contains the marker but also both
MySQL labels, extraction returns the MySQL descriptor, not a MongoTimestamp
one, so the rule can be preempted. -/
theorem claim_C7_counterexample :
    (findMongoDt repC7bad = some capBad ∧
      get_checkpoint_position repC7bad
        = some (PositionDescriptor.mongodb capBadStripped) ∧
      capBadStripped ≠ capBad) ∧
    (findMongoDt repC7two = some capX ∧
      get_checkpoint_position repC7two
        = some (PositionDescriptor.mysql capB cap7)) := by
  decide

/-- Claim C10: the classifier accepts the `OR REPLACE` modifier (its patterns
contain `(?:OR\s+REPLACE\s+)?`), so a `CREATE OR REPLACE SOURCE ... USING
Global.MongoDBReader` document classifies as the MongoDB family; but the
MongoDB insertion pattern (line 444) requires `CREATE SOURCE` without the
modifier, so on such a document with no existing `startTimestamp` field
`patch` returns `changed = false` — whereas the Oracle insertion pattern
(line 463) does accept `OR REPLACE` and the analogous Oracle document is
patched with `changed = true`. -/
theorem claim_C10 :
    get_reader_type docORmongo = some ReaderKind.mongodb ∧
    update_tql_with_position docORmongo ReaderKind.mongodb fmtMongo
      = (docORmongo, false) ∧
    get_reader_type docORoracle = some ReaderKind.oracle ∧
    (update_tql_with_position docORoracle ReaderKind.oracle fmtScn).2 = true := by
  decide

/-- Claim C6: the classifier matches the reader-type declaration
case-insensitively (all its patterns are compiled with `re.IGNORECASE`; the
final conjunct exercises this on an all-lowercase declaration) and maps the
six recognized reader-type tokens many-to-one onto families — MysqlReader to
mysql, MSSqlReader and MSJet to sqlserver, MongoDBReader to mongodb,
OracleReader and OJet to oracle, each case under the source's search order —
and returns `none` (Unclassified) exactly when none of the six source-creation
patterns matches the document. -/
theorem claim_C6 :
    (∀ doc : List Char,
      (get_reader_type doc = none ↔
        (tokSearch tokMysqlReader doc = false ∧ tokSearch tokMSSqlReader doc = false ∧
         tokSearch tokMSJet doc = false ∧ tokSearch tokMongoDBReader doc = false ∧
         tokSearch tokOracleReader doc = false ∧ tokSearch tokOJet doc = false)) ∧
      (tokSearch tokMysqlReader doc = true →
        get_reader_type doc = some ReaderKind.mysql) ∧
      (tokSearch tokMysqlReader doc = false → tokSearch tokMSSqlReader doc = true →
        get_reader_type doc = some ReaderKind.sqlserver) ∧
      (tokSearch tokMysqlReader doc = false → tokSearch tokMSSqlReader doc = false →
        tokSearch tokMSJet doc = true →
        get_reader_type doc = some ReaderKind.sqlserver) ∧
      (tokSearch tokMysqlReader doc = false → tokSearch tokMSSqlReader doc = false →
        tokSearch tokMSJet doc = false → tokSearch tokMongoDBReader doc = true →
        get_reader_type doc = some ReaderKind.mongodb) ∧
      (tokSearch tokMysqlReader doc = false → tokSearch tokMSSqlReader doc = false →
        tokSearch tokMSJet doc = false → tokSearch tokMongoDBReader doc = false →
        tokSearch tokOracleReader doc = true →
        get_reader_type doc = some ReaderKind.oracle) ∧
      (tokSearch tokMysqlReader doc = false → tokSearch tokMSSqlReader doc = false →
        tokSearch tokMSJet doc = false → tokSearch tokMongoDBReader doc = false →
        tokSearch tokOracleReader doc = false → tokSearch tokOJet doc = true →
        get_reader_type doc = some ReaderKind.oracle)) ∧
    get_reader_type ciLowerDoc = some ReaderKind.mysql := by
  constructor
  · intro doc
    by_cases h1 : tokSearch tokMysqlReader doc = true <;>
    by_cases h2 : tokSearch tokMSSqlReader doc = true <;>
    by_cases h3 : tokSearch tokMSJet doc = true <;>
    by_cases h4 : tokSearch tokMongoDBReader doc = true <;>
    by_cases h5 : tokSearch tokOracleReader doc = true <;>
    by_cases h6 : tokSearch tokOJet doc = true <;>
    simp_all [get_reader_type]
  · decide

/-- Witness for C6: the MSJet and OJet aliases at concrete documents, through
the corresponding implications of the claim. -/
theorem claim_C6_witness :
    get_reader_type docMsjetW = some ReaderKind.sqlserver ∧
    get_reader_type docOjetW = some ReaderKind.oracle := by
  constructor
  · exact ((claim_C6.1 docMsjetW).2.2.2.1) (by decide) (by decide) (by decide)
  · exact ((claim_C6.1 docOjetW).2.2.2.2.2.2) (by decide) (by decide) (by decide)
      (by decide) (by decide) (by decide)

/-! ### Machinery for claim C4: `re.sub` decomposition and occurrence counts -/

/-- A successful literal match consumes exactly the literal's length. -/
theorem litP_length : ∀ p l r : List Char, litP p l = some r →
    l.length = p.length + r.length := by
  intro p
  induction p with
  | nil =>
    intro l r h
    simp only [litP, Option.some.injEq] at h
    subst h
    simp
  | cons a ps ih =>
    intro l r h
    cases l with
    | nil => simp [litP] at h
    | cons c cs =>
      simp only [litP] at h
      split at h
      · have := ih cs r h
        simp only [List.length_cons]
        omega
      · exact absurd h (by simp)

/-- Skipping whitespace never lengthens the input. -/
theorem dropWs_length : ∀ l : List Char, (dropWs l).length ≤ l.length := by
  intro l
  induction l with
  | nil => simp [dropWs]
  | cons c cs ih =>
    simp only [dropWs]
    split
    · exact le_trans ih (by simp)
    · exact le_refl _

/-- The placeholder matcher consumes at least one character. -/
theorem matchFieldNow_consumes : ∀ field l r : List Char,
    matchFieldNow field l = some r → r.length < l.length := by
  intro field l r h
  cases h1 : litP field l with
  | none => simp [matchFieldNow, h1] at h
  | some s1 =>
    simp only [matchFieldNow, h1] at h
    have e1 := litP_length field l s1 h1
    have e2 := litP_length qNOW (dropWs s1) r h
    have e3 := dropWs_length s1
    have e4 : qNOW.length = 5 := rfl
    omega

/-- The result of `subF` does not depend on the fuel once the fuel covers the
input length (for matchers that always consume at least one character). -/
theorem subF_congr (m : List Char → Option (List Char)) (r : List Char)
    (hm : ∀ l q, m l = some q → q.length < l.length) :
    ∀ n k l, l.length ≤ n → l.length ≤ k → subF m r n l = subF m r k l := by
  intro n
  induction n with
  | zero =>
    intro k l hn _
    have : l = [] := List.eq_nil_of_length_eq_zero (Nat.le_zero.mp hn)
    subst this
    cases k <;> rfl
  | succ n ih =>
    intro k l hn hk
    cases l with
    | nil => cases k <;> rfl
    | cons c cs =>
      cases k with
      | zero => simp at hk
      | succ k =>
        have hcc : (c :: cs).length = cs.length + 1 := rfl
        cases hmc : m (c :: cs) with
        | some rest =>
          have hlt := hm _ _ hmc
          simp only [subF, hmc]
          exact congrArg (r ++ ·) (ih k rest (by omega) (by omega))
        | none =>
          simp only [subF, hmc]
          exact congrArg (c :: ·) (ih k cs (by omega) (by omega))

/-- One step of `re.sub` at a matching position: emit the replacement and
continue after the matched span. -/
theorem subAll_match (m : List Char → Option (List Char)) (r : List Char)
    (hm : ∀ l q, m l = some q → q.length < l.length) :
    ∀ l rest, m l = some rest → subAll m r l = r ++ subAll m r rest := by
  intro l rest h
  cases l with
  | nil =>
    have := hm _ _ h
    simp at this
  | cons c cs =>
    have hlt := hm _ _ h
    have hcc : (c :: cs).length = cs.length + 1 := rfl
    show subF m r (c :: cs).length (c :: cs) = r ++ subAll m r rest
    rw [hcc]
    simp only [subF, h]
    exact congrArg (r ++ ·)
      (subF_congr m r hm cs.length rest.length rest (by omega) (le_refl _))

/-- One step of `re.sub` at a non-matching position: copy one character. -/
theorem subAll_none (m : List Char → Option (List Char)) (r : List Char) :
    ∀ c cs, m (c :: cs) = none → subAll m r (c :: cs) = c :: subAll m r cs := by
  intro c cs h
  show subF m r (c :: cs).length (c :: cs) = c :: subAll m r cs
  have hcc : (c :: cs).length = cs.length + 1 := rfl
  rw [hcc]
  simp only [subF, h]
  rfl

/-- `re.sub` leaves a text unchanged when the pattern matches at none of its
positions. -/
theorem subAll_id (m : List Char → Option (List Char)) (r : List Char) :
    ∀ l, (∀ q ∈ l.tails, m q = none) → subAll m r l = l := by
  intro l
  induction l with
  | nil => intro _; rfl
  | cons c cs ih =>
    intro h
    have h0 : m (c :: cs) = none :=
      h (c :: cs) ((List.mem_tails _ _).mpr (List.suffix_refl _))
    rw [subAll_none m r c cs h0]
    rw [ih (fun q hq => h q (by
      rw [List.mem_tails] at hq ⊢
      exact hq.trans (List.suffix_cons c cs)))]

/-- The placeholder matcher fires at the head of `plcNOW ++ S` and consumes
exactly the placeholder (by computation on the placeholder's characters). -/
theorem matchTSNow_plc : ∀ S : List Char,
    matchFieldNow fldStartTimestamp (plcNOW ++ S) = some S := fun _ => rfl

/-- Shorthand for the consumption property at the MySQL placeholder matcher. -/
theorem matchTSNow_consumes : ∀ l q : List Char,
    matchFieldNow fldStartTimestamp l = some q → q.length < l.length :=
  fun l q h => matchFieldNow_consumes fldStartTimestamp l q h

/-- Decomposition of the MySQL placeholder substitution on a text of the form
`P ++ placeholder ++ S` in which the pattern matches nowhere inside `P` (at
any suffix position, in context) and nowhere inside `S`: exactly the
placeholder block is replaced. -/
theorem subTS_decomp : ∀ P S : List Char,
    (∀ q ∈ P.tails, q ≠ [] →
      matchFieldNow fldStartTimestamp (q ++ (plcNOW ++ S)) = none) →
    (∀ q ∈ S.tails, matchFieldNow fldStartTimestamp q = none) →
    subAll (matchFieldNow fldStartTimestamp) tgt456 (P ++ (plcNOW ++ S))
      = P ++ (tgt456 ++ S) := by
  intro P
  induction P with
  | nil =>
    intro S _ hS
    simp only [List.nil_append]
    rw [subAll_match _ _ matchTSNow_consumes _ S (matchTSNow_plc S)]
    rw [subAll_id _ _ S hS]
  | cons c P' ih =>
    intro S h hS
    have h0 : matchFieldNow fldStartTimestamp (c :: (P' ++ (plcNOW ++ S))) = none := by
      have := h (c :: P') ((List.mem_tails _ _).mpr (List.suffix_refl _)) (by simp)
      rw [List.cons_append] at this
      exact this
    show subAll (matchFieldNow fldStartTimestamp) tgt456
        (c :: (P' ++ (plcNOW ++ S))) = c :: (P' ++ (tgt456 ++ S))
    rw [subAll_none _ _ _ _ h0]
    rw [ih S (fun q hq hne => h q (by
      rw [List.mem_tails] at hq ⊢
      exact hq.trans (List.suffix_cons c P')) hne) hS]

/-- A border-free pattern cannot occur at any position strictly inside a text
ending with a `t`-block: if `t` is not a prefix of `q` (nonempty), it is not a
prefix of `q ++ t ++ S` either. -/
theorem no_occ_before (t q S : List Char) (hbf : borderFree t) (hq : q ≠ [])
    (hnp : t ≠ q.take t.length) : t ≠ (q ++ (t ++ S)).take t.length := by
  intro h
  rcases le_or_lt t.length q.length with hle | hlt
  · apply hnp
    rw [List.take_append_eq_append_take, Nat.sub_eq_zero_of_le hle] at h
    simpa using h
  · rw [List.take_append_eq_append_take,
      List.take_of_length_le (le_of_lt hlt),
      List.take_append_eq_append_take,
      Nat.sub_eq_zero_of_le (Nat.sub_le _ _), List.take_zero,
      List.append_nil] at h
    have hd := congrArg (List.drop q.length) h
    rw [List.drop_left] at hd
    exact hbf q.length hlt (List.length_pos.mpr hq) hd

/-- Positions strictly inside a `t`-block contribute no occurrence of a
border-free `t`: scanning `t.drop k ++ S` for `1 ≤ k` counts the same as
scanning `S`. -/
theorem no_occ_inside (t S : List Char) (hbf : borderFree t) :
    ∀ d k, d = t.drop k → 1 ≤ k → countOcc t (d ++ S) = countOcc t S := by
  intro d
  induction d with
  | nil => intro k _ _; rfl
  | cons c d' ih =>
    intro k hdk h1k
    have hlen : (c :: d').length = t.length - k := by
      rw [hdk, List.length_drop]
    have hpos : 0 < (c :: d').length := by simp
    have hklt : k < t.length := by omega
    have hcontr : t ≠ ((c :: d') ++ S).take t.length := by
      intro h
      rw [List.take_append_eq_append_take,
        List.take_of_length_le (by omega : (c :: d').length ≤ t.length)] at h
      have htake := congrArg (List.take (c :: d').length) h
      rw [List.take_left] at htake
      apply hbf k hklt h1k
      rw [← hdk, ← hlen]
      exact htake.symm
    show (if t = ((c :: d') ++ S).take t.length then 1 else 0)
        + countOcc t (d' ++ S) = countOcc t S
    rw [if_neg hcontr, Nat.zero_add]
    have hd' : d' = t.drop (k + 1) := by
      have hstep : t.drop (k + 1) = (t.drop k).drop 1 := by
        rw [List.drop_drop]
      rw [hstep, ← hdk]
      rfl
    exact ih (k + 1) hd' (by omega)

/-- Scanning a text that starts with a full `t`-block counts one occurrence at
the block plus whatever follows it. -/
theorem countOcc_block (t S : List Char) (ht : t ≠ []) (hbf : borderFree t) :
    countOcc t (t ++ S) = 1 + countOcc t S := by
  cases t with
  | nil => exact absurd rfl ht
  | cons c t0 =>
    show (if (c :: t0) = ((c :: t0) ++ S).take (c :: t0).length then 1 else 0)
        + countOcc (c :: t0) (t0 ++ S) = 1 + countOcc (c :: t0) S
    rw [if_pos (List.take_left (c :: t0) S).symm]
    congr 1
    exact no_occ_inside (c :: t0) S hbf t0 1 rfl (le_refl 1)

/-- A border-free pattern occurring in neither `P` nor `S` occurs exactly once
in `P ++ t ++ S`. -/
theorem countOcc_single (t : List Char) (ht : t ≠ []) (hbf : borderFree t) :
    ∀ P S : List Char, countOcc t P = 0 → countOcc t S = 0 →
    countOcc t (P ++ (t ++ S)) = 1 := by
  intro P
  induction P with
  | nil =>
    intro S _ hS
    rw [List.nil_append, countOcc_block t S ht hbf, hS]
  | cons c P' ih =>
    intro S hP hS
    simp only [countOcc] at hP
    have h1 := Nat.add_eq_zero.mp hP
    have hnp : t ≠ (c :: P').take t.length := by
      intro he
      have := h1.1
      rw [if_pos he] at this
      exact absurd this (by omega)
    show (if t = ((c :: P') ++ (t ++ S)).take t.length then 1 else 0)
        + countOcc t (P' ++ (t ++ S)) = 1
    rw [if_neg (no_occ_before t (c :: P') S hbf (by simp) hnp), Nat.zero_add]
    exact ih S h1.2 hS

/-- Claim C4 (amended): for every document of the form
`P ++ "StartTimestamp: 'NOW'" ++ S` classified MySqlBinlog, in which the
placeholder pattern matches at no position inside `P` (in context) and at no
position of `S`, and in which neither `P` nor `S` already contains the
replaced field text, `patch` with the descriptor rendered
`FileName:mysql-bin.000123;offset:456` produces exactly
`P ++ "StartTimestamp: 'FileName:mysql-bin.000123;offset:456'" ++ S` with
`changed = true` — every byte outside the placeholder is unchanged — and the
replaced field occurs exactly once in the result.  (Without the
single-occurrence hypotheses this fails: `re.sub` replaces every occurrence,
see the counterexample.) -/
theorem claim_C4 : ∀ P S : List Char,
    (∀ q ∈ P.tails, q ≠ [] →
      matchFieldNow fldStartTimestamp (q ++ (plcNOW ++ S)) = none) →
    (∀ q ∈ S.tails, matchFieldNow fldStartTimestamp q = none) →
    countOcc tgt456 P = 0 → countOcc tgt456 S = 0 →
    get_reader_type (P ++ (plcNOW ++ S)) = some ReaderKind.mysql →
    update_tql_with_position (P ++ (plcNOW ++ S)) ReaderKind.mysql fmt456
        = (P ++ (tgt456 ++ S), true) ∧
    countOcc tgt456 (P ++ (tgt456 ++ S)) = 1 := by
  intro P S hp hs hp0 hs0 _
  have hsub : computeUpdated (P ++ (plcNOW ++ S)) ReaderKind.mysql fmt456
      = P ++ (tgt456 ++ S) := subTS_decomp P S hp hs
  have hne : P ++ (tgt456 ++ S) ≠ P ++ (plcNOW ++ S) := by
    intro h
    have hl := congrArg List.length h
    simp only [List.length_append] at hl
    have e1 : tgt456.length = 54 := by decide
    have e2 : plcNOW.length = 21 := by decide
    omega
  constructor
  · show (if computeUpdated (P ++ (plcNOW ++ S)) ReaderKind.mysql fmt456
          = P ++ (plcNOW ++ S)
        then (P ++ (plcNOW ++ S), false)
        else (computeUpdated (P ++ (plcNOW ++ S)) ReaderKind.mysql fmt456, true))
        = (P ++ (tgt456 ++ S), true)
    rw [hsub, if_neg hne]
  · exact countOcc_single tgt456 (by decide) (by decide) P S hp0 hs0

/-- Witness for C4 at a concrete MysqlReader document: the hypotheses hold and
the placeholder is rewritten in place. -/
theorem claim_C4_witness :
    update_tql_with_position (wP ++ (plcNOW ++ wS)) ReaderKind.mysql fmt456
        = (wP ++ (tgt456 ++ wS), true) ∧
    countOcc tgt456 (wP ++ (tgt456 ++ wS)) = 1 :=
  claim_C4 wP wS (by decide) (by decide) (by decide) (by decide) (by decide)

/-- Counterexample to C4 as stated: a MysqlReader document containing the
placeholder twice; the claim demands exactly one occurrence of the replaced
field in the output, but `re.sub` replaces every placeholder and the output
contains it twice. -/
theorem claim_C4_counterexample :
    get_reader_type docDup = some ReaderKind.mysql ∧
    (update_tql_with_position docDup ReaderKind.mysql fmt456).2 = true ∧
    countOcc tgt456 (update_tql_with_position docDup ReaderKind.mysql fmt456).1
      = 2 := by
  decide
